import Mathlib

/-!
Verification of the CONSAR analysis repository's aggregation, growth and
repair logic.  Records of the JSON record store are embedded as a flat
structure with optional fields (a Python `record.get` returning `None` is
`Option.none`); numeric values are rationals.
-/

/-- A flat record of the record store (one JSON object).  Optional fields
model Python dictionary entries that may be missing or `None`. -/
structure Rec where
  afore : Option String
  siefore : Option String
  concept : Option String
  conceptSec : Option String
  periodYear : Option String
  periodMonth : Option String
  valueMXN : Option ℚ
  fxEOM : Option ℚ
  valueUSD : Option ℚ
deriving DecidableEq, Repr

namespace GrowthAnalysis

/-- Per-institution aggregate for one period: mutual funds, third party,
total active management (growth_analysis.GrowthAnalyzer.get_period_data). -/
structure GAV where
  mf : ℚ
  tp : ℚ
  tot : ℚ
deriving DecidableEq, Repr

/-- The concept label for mutual funds. -/
def mfLabel : String := "Inversión en Fondos Mutuos"

/-- The concept label for third-party mandates. -/
def tpLabel : String := "Inversiones Tercerizadas"

/-- Membership test of a key in an association-list dictionary. -/
def hasKey (d : List (String × GAV)) (a : String) : Bool :=
  d.any (fun e => e.1 == a)

/-- Add `v` to the `mf` field of the entry for key `a`. -/
def updMF : List (String × GAV) → String → ℚ → List (String × GAV)
  | [], _, _ => []
  | (k, x) :: rest, a, v =>
    if k = a then (k, { x with mf := x.mf + v }) :: rest
    else (k, x) :: updMF rest a v

/-- Add `v` to the `tp` field of the entry for key `a`. -/
def updTP : List (String × GAV) → String → ℚ → List (String × GAV)
  | [], _, _ => []
  | (k, x) :: rest, a, v =>
    if k = a then (k, { x with tp := x.tp + v }) :: rest
    else (k, x) :: updTP rest a v

/-- The per-record filter of `get_period_data`: period matches and the
`valueUSD` field is present and non-null. -/
def gaFilter (y m : String) (r : Rec) : Bool :=
  r.periodYear == some y && r.periodMonth == some m && r.valueUSD.isSome

/-- One loop iteration of `get_period_data`: initialise the institution's
entry if absent, then add the USD value into the matching category. -/
def gaStep (d : List (String × GAV)) (r : Rec) : List (String × GAV) :=
  let a := r.afore.getD "Unknown"
  let v := r.valueUSD.getD 0
  let d1 := if hasKey d a then d else d ++ [(a, ⟨0, 0, 0⟩)]
  if r.concept == some mfLabel then updMF d1 a v
  else if r.concept == some tpLabel then updTP d1 a v
  else d1

/-- The final loop of `get_period_data`: total active = mf + tp. -/
def finalizeTotals (d : List (String × GAV)) : List (String × GAV) :=
  d.map (fun e => (e.1, { e.2 with tot := e.2.mf + e.2.tp }))

/-- `GrowthAnalyzer.get_period_data`: aggregate a period's USD-carrying
records by institution into the three categories. -/
def getPeriodData (db : List Rec) (y m : String) : List (String × GAV) :=
  finalizeTotals ((db.filter (gaFilter y m)).foldl gaStep [])

/-- A growth rate: either a finite percentage or the positive-infinity
sentinel used for newly appeared assets. -/
inductive GRate where
  | fin (q : ℚ)
  | posInf
deriving DecidableEq, Repr

/-- One asset category of a growth row: current and historical values,
growth rate, absolute change. -/
structure GrowthCell where
  current : ℚ
  historical : ℚ
  rate : GRate
  absChange : ℚ
deriving DecidableEq, Repr

/-- One row of `calculate_growth_rates`: the three cells of an institution. -/
structure GrowthRow where
  afore : String
  mf : GrowthCell
  tp : GrowthCell
  tot : GrowthCell
deriving DecidableEq, Repr

/-- Build one cell, with the three-branch growth-rate rule of
`calculate_growth_rates`. -/
def mkCell (c h : ℚ) : GrowthCell :=
  { current := c
    historical := h
    rate :=
      if 0 < h then GRate.fin ((c - h) / h * 100)
      else if 0 < c then GRate.posInf
      else GRate.fin 0
    absChange := c - h }

/-- Dictionary lookup with the zero default used by
`current_data.get(afore, zeros)`. -/
def lookupGA (d : List (String × GAV)) (a : String) : GAV :=
  match d.find? (fun e => e.1 == a) with
  | some e => e.2
  | none => ⟨0, 0, 0⟩

/-- Insert a string into a sorted list of strings. -/
def insertStr (a : String) : List String → List String
  | [] => [a]
  | b :: rest => if b < a then b :: insertStr a rest else a :: b :: rest

/-- Insertion sort on strings (the `sorted(...)` calls). -/
def sortStrs : List String → List String
  | [] => []
  | a :: rest => insertStr a (sortStrs rest)

/-- Sorted union of the institutions of the two aggregates. -/
def unionKeys (cur hist : List (String × GAV)) : List String :=
  sortStrs ((cur.map Prod.fst ++ hist.map Prod.fst).dedup)

/-- Build the growth row of one institution. -/
def mkRow (cur hist : List (String × GAV)) (a : String) : GrowthRow :=
  let cv := lookupGA cur a
  let hv := lookupGA hist a
  { afore := a
    mf := mkCell cv.mf hv.mf
    tp := mkCell cv.tp hv.tp
    tot := mkCell cv.tot hv.tot }

/-- `GrowthAnalyzer.calculate_growth_rates`: one row per institution of the
union of the two aggregates, sorted by name. -/
def calculateGrowthRates (cur hist : List (String × GAV)) : List GrowthRow :=
  (unionKeys cur hist).map (mkRow cur hist)

/-- The comparison-period list built in `GrowthAnalyzer.run_analysis`
(years and months as integers). -/
def comparisonPeriods (y m : ℤ) : List (String × ℤ × ℤ) :=
  (if m ≠ 12 then [("YTD", (if m ≤ 12 then y - 1 else y), 12)] else []) ++
    [("1Y", y - 1, m), ("3Y", y - 3, m), ("5Y", y - 5, m)]

/-- The window loop of `run_analysis`: a window whose historical aggregate
is empty is skipped, the others yield growth rows. -/
def computeWindows (db : List Rec) (cur : List (String × GAV))
    (ps : List (String × String × String)) : List (String × List GrowthRow) :=
  ps.filterMap (fun w =>
    let h := getPeriodData db w.2.1 w.2.2
    if h.isEmpty then none else some (w.1, calculateGrowthRates cur h))

end GrowthAnalysis

namespace ConsistencyFix

/-- The per-period sum of local-currency values of total-assets records
(`analyze_current_state` builds `period_totals`); `p` is the pair of the
record's period fields. -/
def taSum : List Rec → Option String × Option String → ℚ
  | [], _ => 0
  | r :: rest, p =>
    (if r.concept = some "Total de Activo" ∧ (r.periodYear, r.periodMonth) = p
     then r.valueMXN.getD 0 else 0) + taSum rest p

/-- Whether a period is flagged as mis-scaled: positive total-assets sum
strictly below the 10^12 plausibility threshold. -/
def flaggedB (db : List Rec) (p : Option String × Option String) : Bool :=
  decide (0 < taSum db p) && decide (taSum db p < 10 ^ 12)

/-- The per-record repair of `fix_scaling_issues`: in a flagged period,
drop the USD value and multiply the local value by 1000. -/
def fixRec (fl : Option String × Option String → Bool) (r : Rec) : Rec :=
  if fl (r.periodYear, r.periodMonth) then
    { r with valueUSD := none, valueMXN := r.valueMXN.map (· * 1000) }
  else r

/-- `fix_scaling_issues` applied to the periods flagged by
`analyze_current_state`. -/
def fixScaling (db : List Rec) : List Rec :=
  db.map (fixRec (flaggedB db))

/-- The per-record step of `generate_usd_values`: with a local value and a
positive FX rate, backfill a missing USD value (an existing one is kept);
otherwise remove any USD value. -/
def genRec (r : Rec) : Rec :=
  match r.valueMXN, r.fxEOM with
  | some m, some f =>
    if 0 < f then
      match r.valueUSD with
      | none => { r with valueUSD := some (m / f) }
      | some _ => r
    else { r with valueUSD := none }
  | _, _ => { r with valueUSD := none }

/-- `generate_usd_values` over the whole record set. -/
def generateUsd (db : List Rec) : List Rec :=
  db.map genRec

/-- The full consistency repair pass: scaling detection and repair,
then USD backfill/removal (`DatabaseConsistencyFixer.run`, restricted to
the record-mutating steps). -/
def runPass (db : List Rec) : List Rec :=
  generateUsd (fixScaling db)

end ConsistencyFix

namespace Monitor

/-- The composite deduplication key of `extract_new_records`:
`(Afore, Siefore, Concept or Concept_Section, PeriodYear, PeriodMonth)`. -/
def recKey (r : Rec) :
    Option String × Option String × Option String × Option String × Option String :=
  (r.afore, r.siefore, r.concept.orElse (fun _ => r.conceptSec),
    r.periodYear, r.periodMonth)

/-- `ConsarMonitor.extract_new_records`: keep exactly the processed records
whose composite key is absent from the current record store. -/
def extractNewRecords (db processed : List Rec) : List Rec :=
  let keys := db.map recKey
  processed.filter (fun r => decide (recKey r ∉ keys))

/-- Abstract state of the monitor's file effects: the record-store file
(`none` = missing), the successfully written backups, whether the backup
copy operation can succeed, and the pending approval unit's records. -/
structure MonitorState where
  dbFile : Option (List Rec)
  backups : List (List Rec)
  backupWritable : Bool
  pendingUnit : Option (List Rec)
deriving DecidableEq, Repr

/-- `ConsarMonitor.create_database_backup`: returns the backup (None on a
missing store or a failed copy) and the updated file state. -/
def createDatabaseBackup (s : MonitorState) : Option (List Rec) × MonitorState :=
  match s.dbFile with
  | none => (none, s)
  | some db =>
    if s.backupWritable then (some db, { s with backups := db :: s.backups })
    else (none, s)

/-- `ConsarMonitor.approve_records`: load the pending records, attempt a
backup (its result is not checked), then append the records to the store;
a missing store makes the load raise, so nothing is mutated. -/
def approveRecords (s : MonitorState) : MonitorState :=
  match s.pendingUnit with
  | none => s
  | some newRecords =>
    let s1 := (createDatabaseBackup s).2
    match s1.dbFile with
    | none => s1
    | some db =>
      { s1 with dbFile := some (db ++ newRecords), pendingUnit := none }

end Monitor

namespace ProfessionalTables

/-- The USD-millions contribution of one record in
`ProfessionalAUMAnalyzer.get_period_data`: `valueMXN / FX_EOM` when the
rate is positive, else 0, divided by 10^6. -/
def usdMillions (r : Rec) : ℚ :=
  (if 0 < r.fxEOM.getD 1 then r.valueMXN.getD 0 / r.fxEOM.getD 1 else 0) / 1000000

/-- Add `v` to the entry of key `a`, appending a fresh entry when absent
(the `if afore not in afore_data` initialisation plus `+=`). -/
def addToDict : List (String × ℚ) → String → ℚ → List (String × ℚ)
  | [], a, v => [(a, v)]
  | (k, x) :: rest, a, v =>
    if k = a then (k, x + v) :: rest
    else (k, x) :: addToDict rest a v

/-- The record filter of `ProfessionalAUMAnalyzer.get_period_data`:
period and concept match, and both `valueMXN` and `FX_EOM` are present. -/
def ptFilter (y m c : String) (r : Rec) : Bool :=
  r.periodYear == some y && r.periodMonth == some m &&
    r.concept == some c && r.valueMXN.isSome && r.fxEOM.isSome

/-- The grouping loop: records with a truthy institution contribute their
USD-millions value to the institution's entry. -/
def buildDict : List Rec → List (String × ℚ) → List (String × ℚ)
  | [], d => d
  | r :: rest, d =>
    buildDict rest
      (match r.afore with
       | some a => if a = "" then d else addToDict d a (usdMillions r)
       | none => d)

/-- `ProfessionalAUMAnalyzer.get_period_data`: institution → summed value
in USD millions for one period and concept. -/
def getPeriodData (db : List Rec) (y m c : String) : List (String × ℚ) :=
  buildDict (db.filter (ptFilter y m c)) []

/-- Sum of the values of a dictionary. -/
def dictSum (d : List (String × ℚ)) : ℚ :=
  (d.map Prod.snd).sum

/-- Dictionary lookup with default (`afore_data.get(afore, 0)`). -/
def lookupD (d : List (String × ℚ)) (a : String) : ℚ :=
  match d.find? (fun e => e.1 == a) with
  | some e => e.2
  | none => 0

/-- Percentage of total: `cat / total * 100` when the total is positive,
else 0 (the shared `if total > 0 else 0` pattern). -/
def pctOfTotal (cat total : ℚ) : ℚ :=
  if 0 < total then cat / total * 100 else 0

/-- One row of the AUM table. -/
structure AumRow where
  afore : String
  totalAUM : ℚ
  mfAUM : ℚ
  pct : ℚ
deriving DecidableEq, Repr

/-- The per-institution rows of `create_aum_table`, iterating the sorted
keys of the total-assets aggregate; values are scaled by 1000 for display. -/
def aumRows (db : List Rec) (y m : String) : List AumRow :=
  let totalData := getPeriodData db y m "Total de Activo"
  let mfData := getPeriodData db y m "Inversión en Fondos Mutuos"
  (GrowthAnalysis.sortStrs (totalData.map Prod.fst)).map (fun a =>
    let t := lookupD totalData a * 1000
    let f := lookupD mfData a * 1000
    { afore := a, totalAUM := t, mfAUM := f, pct := pctOfTotal f t })

/-- The synthetic TOTAL row of `create_aum_table`: the accumulated column
sums of the institution rows. -/
def aumTotalRow (db : List Rec) (y m : String) : AumRow :=
  let rows := aumRows db y m
  let ts := (rows.map AumRow.totalAUM).sum
  let fs := (rows.map AumRow.mfAUM).sum
  { afore := "TOTAL", totalAUM := ts, mfAUM := fs, pct := pctOfTotal fs ts }

/-- `ProfessionalAUMAnalyzer.create_aum_table`: institution rows then the
TOTAL row. -/
def createAumTable (db : List Rec) (y m : String) : List AumRow :=
  aumRows db y m ++ [aumTotalRow db y m]

/-- One row of the total-active-management table. -/
structure ActiveRow where
  afore : String
  totalAUM : ℚ
  mfAUM : ℚ
  tpAUM : ℚ
  activeAUM : ℚ
  pct : ℚ
deriving DecidableEq, Repr

/-- The per-institution rows of `create_total_active_management_table`. -/
def activeRows (db : List Rec) (y m : String) : List ActiveRow :=
  let totalData := getPeriodData db y m "Total de Activo"
  let mfData := getPeriodData db y m "Inversión en Fondos Mutuos"
  let tpData := getPeriodData db y m "Inversiones Tercerizadas"
  (GrowthAnalysis.sortStrs (totalData.map Prod.fst)).map (fun a =>
    let t := lookupD totalData a * 1000
    let f := lookupD mfData a * 1000
    let g := lookupD tpData a * 1000
    { afore := a, totalAUM := t, mfAUM := f, tpAUM := g,
      activeAUM := f + g, pct := pctOfTotal (f + g) t })

/-- The synthetic TOTAL row of `create_total_active_management_table`. -/
def activeTotalRow (db : List Rec) (y m : String) : ActiveRow :=
  let rows := activeRows db y m
  let ts := (rows.map ActiveRow.totalAUM).sum
  let fs := (rows.map ActiveRow.mfAUM).sum
  let gs := (rows.map ActiveRow.tpAUM).sum
  let as_ := (rows.map ActiveRow.activeAUM).sum
  { afore := "TOTAL", totalAUM := ts, mfAUM := fs, tpAUM := gs,
    activeAUM := as_, pct := pctOfTotal as_ ts }

/-- `ProfessionalAUMAnalyzer.create_total_active_management_table`. -/
def createActiveTable (db : List Rec) (y m : String) : List ActiveRow :=
  activeRows db y m ++ [activeTotalRow db y m]

/-- Calendar month subtraction with year rollover (`relativedelta`). -/
def subMonths (y m n : ℤ) : ℤ × ℤ :=
  let t := y * 12 + (m - 1) - n
  (Int.fdiv t 12, Int.fmod t 12 + 1)

/-- `ProfessionalAUMAnalyzer.calculate_dynamic_periods`: the comparison
periods; the YTD baseline is always December of the prior year. -/
def dynamicPeriods (y m : ℤ) : List (String × ℤ × ℤ) :=
  [("current", (y, m)),
   ("ytd_baseline", (y - 1, 12)),
   ("1_year", subMonths y m 12),
   ("3_year", subMonths y m 36),
   ("5_year", subMonths y m 60)]

/-- The YTD baseline of `calculate_dynamic_periods`. -/
def ytdBaseline (y m : ℤ) : ℤ × ℤ :=
  (y - 1, 12)

end ProfessionalTables

/-- A total-assets record with a tiny local value: its period is flagged,
and one ×1000 repair leaves the period's sum below the threshold. -/
def c4Db : List Rec :=
  [⟨some "XXI Banorte", some "SB1", some "Total de Activo", none,
    some "2025", some "05", some 1, none, none⟩]

/-- A total-assets record whose period sum is exactly 10^9, so a single
×1000 repair reaches the 10^12 plausibility threshold. -/
def c4wDb : List Rec :=
  [⟨some "XXI Banorte", some "SB1", some "Total de Activo", none,
    some "2025", some "05", some 1000000000, some 20, none⟩]

/-- A period whose total-assets sum is zero: below the threshold yet not
flagged. -/
def c5Db : List Rec :=
  [⟨some "XXI Banorte", some "SB1", some "Total de Activo", none,
    some "2025", some "05", some 0, none, none⟩]

/-- A flagged period for the corrected scaling claim: sum 5, positive and
below 10^12. -/
def c5wRec : Rec :=
  ⟨some "XXI Banorte", some "SB1", some "Total de Activo", none,
    some "2025", some "05", some 5, none, some 3⟩

/-- The record set holding `c5wRec` alone. -/
def c5wDb : List Rec := [c5wRec]

/-- A record with local value 189000000, FX rate 18.90 and a stale USD
value 5: the backfill keeps the stale value. -/
def c6Rec : Rec :=
  ⟨some "XXI Banorte", some "SB1", some "Total de Activo", none,
    some "2025", some "05", some 189000000, some (189 / 10), some 5⟩

/-- The same record without a USD value: the backfill computes one. -/
def c6wRec : Rec :=
  ⟨some "XXI Banorte", some "SB1", some "Total de Activo", none,
    some "2025", some "05", some 189000000, some (189 / 10), none⟩

/-- A sample well-formed record used in several concrete inputs. -/
def sampleRec : Rec :=
  ⟨some "Azteca", some "SB2", some "Inversión en Fondos Mutuos", none,
    some "2025", some "06", some 40, some 20, some 2⟩

/-- Monitor state for the approval claim: the record store exists and is
empty, no backups, the backup copy operation fails, one pending unit. -/
def c9State : Monitor.MonitorState :=
  ⟨some [], [], false, some [sampleRec]⟩

/-- A small record set for evaluating the professional tables: one
total-assets record and one mutual-funds record of the same institution. -/
def c7Db : List Rec :=
  [⟨some "Azteca", some "SB1", some "Total de Activo", none,
    some "2025", some "06", some 40, some 2, none⟩,
   ⟨some "Azteca", some "SB1", some "Inversión en Fondos Mutuos", none,
    some "2025", some "06", some 10, some 2, none⟩]

/-- A record whose period's records all lack a USD value. -/
def c10Db : List Rec :=
  [⟨some "Azteca", some "SB1", some "Inversión en Fondos Mutuos", none,
    some "2020", some "06", some 10, some 2, none⟩]

namespace ConsistencyFix

lemma fixRec_concept (fl : Option String × Option String → Bool) (r : Rec) :
    (fixRec fl r).concept = r.concept := by
  unfold fixRec; split <;> rfl

lemma fixRec_periodYear (fl : Option String × Option String → Bool) (r : Rec) :
    (fixRec fl r).periodYear = r.periodYear := by
  unfold fixRec; split <;> rfl

lemma fixRec_periodMonth (fl : Option String × Option String → Bool) (r : Rec) :
    (fixRec fl r).periodMonth = r.periodMonth := by
  unfold fixRec; split <;> rfl

lemma fixRec_valueMXN (fl : Option String × Option String → Bool) (r : Rec) :
    (fixRec fl r).valueMXN =
      if fl (r.periodYear, r.periodMonth) then r.valueMXN.map (· * 1000)
      else r.valueMXN := by
  unfold fixRec; split <;> simp_all

lemma fixRec_noop (fl : Option String × Option String → Bool) (r : Rec)
    (h : fl (r.periodYear, r.periodMonth) = false) : fixRec fl r = r := by
  simp [fixRec, h]

lemma genRec_preserves (r : Rec) :
    (genRec r).concept = r.concept ∧
    (genRec r).periodYear = r.periodYear ∧
    (genRec r).periodMonth = r.periodMonth ∧
    (genRec r).valueMXN = r.valueMXN ∧
    (genRec r).fxEOM = r.fxEOM := by
  rcases hm : r.valueMXN with _ | m <;> rcases hf : r.fxEOM with _ | f <;>
    simp [genRec, hm, hf]
  split
  · rcases hu : r.valueUSD with _ | u <;> simp [hu, hm, hf]
  · simp

lemma genRec_idem (r : Rec) : genRec (genRec r) = genRec r := by
  rcases hm : r.valueMXN with _ | m <;> rcases hf : r.fxEOM with _ | f
  · simp [genRec, hm, hf]
  · simp [genRec, hm, hf]
  · simp [genRec, hm, hf]
  · by_cases hpos : 0 < f
    · rcases hu : r.valueUSD with _ | u <;> simp [genRec, hm, hf, hpos, hu]
    · simp [genRec, hm, hf, hpos]

lemma map_eq_self_of {α : Type} (l : List α) (f : α → α)
    (h : ∀ a ∈ l, f a = a) : l.map f = l := by
  induction l with
  | nil => rfl
  | cons a rest ih =>
    simp only [List.map_cons]
    rw [h a (List.mem_cons_self a rest),
      ih (fun b hb => h b (List.mem_cons_of_mem a hb))]

lemma generateUsd_idem (l : List Rec) :
    generateUsd (generateUsd l) = generateUsd l := by
  unfold generateUsd
  rw [List.map_map]
  have h : genRec ∘ genRec = genRec := funext genRec_idem
  rw [h]

lemma flaggedB_iff (db : List Rec) (p : Option String × Option String) :
    flaggedB db p = true ↔ 0 < taSum db p ∧ taSum db p < 10 ^ 12 := by
  simp [flaggedB]

lemma taSum_map_genRec (l : List Rec) (p : Option String × Option String) :
    taSum (l.map genRec) p = taSum l p := by
  induction l with
  | nil => rfl
  | cons r rest ih =>
    simp only [List.map_cons, taSum, ih]
    have h := genRec_preserves r
    rw [h.1, h.2.1, h.2.2.1, h.2.2.2.1]

lemma taSum_map_fixRec (fl : Option String × Option String → Bool)
    (l : List Rec) (p : Option String × Option String) :
    taSum (l.map (fixRec fl)) p =
      if fl p then 1000 * taSum l p else taSum l p := by
  induction l with
  | nil => simp [taSum]
  | cons r rest ih =>
    simp only [List.map_cons, taSum]
    rw [ih]
    by_cases hc : r.concept = some "Total de Activo" ∧
        (r.periodYear, r.periodMonth) = p
    · have hcf : (fixRec fl r).concept = some "Total de Activo" ∧
          ((fixRec fl r).periodYear, (fixRec fl r).periodMonth) = p := by
        rw [fixRec_concept, fixRec_periodYear, fixRec_periodMonth]; exact hc
      rw [if_pos hcf, if_pos hc, fixRec_valueMXN, hc.2]
      by_cases hfl : fl p = true
      · rw [if_pos hfl, if_pos hfl, if_pos hfl]
        rcases r.valueMXN with _ | x <;> simp <;> ring
      · rw [if_neg hfl, if_neg hfl, if_neg hfl]
    · have hcf : ¬ ((fixRec fl r).concept = some "Total de Activo" ∧
          ((fixRec fl r).periodYear, (fixRec fl r).periodMonth) = p) := by
        rw [fixRec_concept, fixRec_periodYear, fixRec_periodMonth]; exact hc
      rw [if_neg hcf, if_neg hc]
      by_cases hfl : fl p = true <;> simp [hfl]

lemma taSum_runPass (db : List Rec) (p : Option String × Option String) :
    taSum (runPass db) p =
      if flaggedB db p then 1000 * taSum db p else taSum db p := by
  unfold runPass generateUsd fixScaling
  rw [taSum_map_genRec, taSum_map_fixRec]

lemma flaggedB_runPass (db : List Rec)
    (H : ∀ p, ¬ (0 < taSum db p ∧ taSum db p < 10 ^ 9))
    (p : Option String × Option String) :
    flaggedB (runPass db) p = false := by
  rw [Bool.eq_false_iff]
  intro hT
  rw [flaggedB_iff, taSum_runPass] at hT
  by_cases hfl : flaggedB db p = true
  · rw [if_pos hfl] at hT
    have hs := (flaggedB_iff db p).1 hfl
    have h9 : (10 : ℚ) ^ 9 ≤ taSum db p := by
      by_contra hlt
      exact H p ⟨hs.1, lt_of_not_ge hlt⟩
    have hbig : (10 : ℚ) ^ 12 ≤ 1000 * taSum db p := by
      calc (10 : ℚ) ^ 12 = 1000 * 10 ^ 9 := by norm_num
      _ ≤ 1000 * taSum db p := by
          exact mul_le_mul_of_nonneg_left h9 (by norm_num)
    exact absurd hT.2 (not_lt.mpr hbig)
  · rw [if_neg hfl] at hT
    exact hfl ((flaggedB_iff db p).2 hT)

end ConsistencyFix

/-- Claim C4 (counterexample): the repair pass is not idempotent.  A
total-assets record with local value 1 is in a flagged period; after the
×1000 repair the period sum is 1000, still below 10^12, so a second run
multiplies again. -/
theorem C4_counterexample :
    ConsistencyFix.runPass (ConsistencyFix.runPass c4Db) ≠
      ConsistencyFix.runPass c4Db := by
  have h1 : ConsistencyFix.runPass c4Db =
      [⟨some "XXI Banorte", some "SB1", some "Total de Activo", none,
        some "2025", some "05", some 1000, none, none⟩] := by
    norm_num [c4Db, ConsistencyFix.runPass, ConsistencyFix.fixScaling,
      ConsistencyFix.generateUsd, ConsistencyFix.fixRec, ConsistencyFix.genRec,
      ConsistencyFix.flaggedB, ConsistencyFix.taSum]
  have h2 : ConsistencyFix.runPass
      [⟨some "XXI Banorte", some "SB1", some "Total de Activo", none,
        some "2025", some "05", some 1000, none, none⟩] =
      [⟨some "XXI Banorte", some "SB1", some "Total de Activo", none,
        some "2025", some "05", some 1000000, none, none⟩] := by
    norm_num [ConsistencyFix.runPass, ConsistencyFix.fixScaling,
      ConsistencyFix.generateUsd, ConsistencyFix.fixRec, ConsistencyFix.genRec,
      ConsistencyFix.flaggedB, ConsistencyFix.taSum]
  rw [h1, h2]
  simp

/-- Claim C4 (amended): the full repair pass is idempotent on every record
set in which no period's total-assets local-currency sum lies strictly
between 0 and 10^9 (so one ×1000 repair of a flagged period clears the
10^12 threshold): a second run changes no record. -/
theorem C4_repair_idempotent (db : List Rec)
    (H : ∀ p, ¬ (0 < ConsistencyFix.taSum db p ∧
      ConsistencyFix.taSum db p < 10 ^ 9)) :
    ConsistencyFix.runPass (ConsistencyFix.runPass db) =
      ConsistencyFix.runPass db := by
  have h1 : ConsistencyFix.fixScaling (ConsistencyFix.runPass db) =
      ConsistencyFix.runPass db := by
    unfold ConsistencyFix.fixScaling
    apply ConsistencyFix.map_eq_self_of
    intro r _
    apply ConsistencyFix.fixRec_noop
    exact ConsistencyFix.flaggedB_runPass db H _
  show ConsistencyFix.generateUsd
    (ConsistencyFix.fixScaling (ConsistencyFix.runPass db)) =
      ConsistencyFix.runPass db
  rw [h1]
  show ConsistencyFix.generateUsd (ConsistencyFix.generateUsd
    (ConsistencyFix.fixScaling db)) = ConsistencyFix.runPass db
  rw [ConsistencyFix.generateUsd_idem]
  rfl

/-- Claim C4 (witness): a record set whose single period sums to exactly
10^9 satisfies the hypothesis, and the pass is idempotent on it. -/
theorem C4_repair_idempotent_witness :
    ConsistencyFix.runPass (ConsistencyFix.runPass c4wDb) =
      ConsistencyFix.runPass c4wDb := by
  apply C4_repair_idempotent
  intro p
  by_cases hp : ((some "2025" : Option String), (some "05" : Option String)) = p
  · simp only [c4wDb, ConsistencyFix.taSum, hp]
    norm_num
  · simp only [c4wDb, ConsistencyFix.taSum, hp]
    norm_num

/-- Claim C5 (counterexample): a period whose total-assets records sum to
0 has a sum below 10^12 yet is not flagged, so "flags exactly when the sum
falls below 10^12" fails. -/
theorem C5_counterexample :
    ¬ ((ConsistencyFix.flaggedB c5Db (some "2025", some "05") = true) ↔
      ConsistencyFix.taSum c5Db (some "2025", some "05") < 10 ^ 12) := by
  have hs : ConsistencyFix.taSum c5Db (some "2025", some "05") = 0 := by
    norm_num [c5Db, ConsistencyFix.taSum]
  have hf : ConsistencyFix.flaggedB c5Db (some "2025", some "05") = false := by
    simp [ConsistencyFix.flaggedB, hs]
  rw [hf, hs]
  norm_num

/-- Claim C5 (amended): a period is flagged exactly when its total-assets
local-currency sum is strictly positive and below 10^12; every record of a
flagged period has its local value multiplied by 1000 (when present) and
its USD value discarded by the repair map. -/
theorem C5_scaling_flag (db : List Rec) (p : Option String × Option String) :
    (ConsistencyFix.flaggedB db p = true ↔
      0 < ConsistencyFix.taSum db p ∧ ConsistencyFix.taSum db p < 10 ^ 12) ∧
    (∀ r ∈ db,
      ConsistencyFix.flaggedB db (r.periodYear, r.periodMonth) = true →
      (ConsistencyFix.fixRec (ConsistencyFix.flaggedB db) r).valueMXN =
        r.valueMXN.map (· * 1000) ∧
      (ConsistencyFix.fixRec (ConsistencyFix.flaggedB db) r).valueUSD =
        none) := by
  constructor
  · exact ConsistencyFix.flaggedB_iff db p
  · intro r _ hf
    constructor <;> simp [ConsistencyFix.fixRec, hf]

/-- Claim C5 (witness): a period with total-assets sum 5 is flagged, and
its record's repair multiplies the local value by 1000 and drops the USD
value. -/
theorem C5_scaling_flag_witness :
    ConsistencyFix.flaggedB c5wDb (some "2025", some "05") = true ∧
    (ConsistencyFix.fixRec (ConsistencyFix.flaggedB c5wDb) c5wRec).valueMXN =
      some 5000 ∧
    (ConsistencyFix.fixRec (ConsistencyFix.flaggedB c5wDb) c5wRec).valueUSD =
      none := by
  have hs : ConsistencyFix.taSum c5wDb (some "2025", some "05") = 5 := by
    norm_num [c5wDb, c5wRec, ConsistencyFix.taSum]
  have hf : ConsistencyFix.flaggedB c5wDb (some "2025", some "05") = true := by
    simp [ConsistencyFix.flaggedB, hs]
    norm_num
  have h := (C5_scaling_flag c5wDb (some "2025", some "05")).2 c5wRec
    (by simp [c5wDb]) hf
  refine ⟨hf, ?_, h.2⟩
  rw [h.1]
  show (some (5 : ℚ)).map (· * 1000) = some 5000
  simp
  norm_num

/-- Claim C6 (counterexample): a record with local value 189000000, FX
rate 18.90 and a stale USD value 5 passes the backfill step unchanged, with
a USD value more than 1 unit away from value_local / fx_rate. -/
theorem C6_counterexample :
    (ConsistencyFix.genRec c6Rec).valueUSD = some 5 ∧
    (ConsistencyFix.genRec c6Rec).valueMXN = some 189000000 ∧
    (ConsistencyFix.genRec c6Rec).fxEOM = some (189 / 10) ∧
    ¬ |(5 : ℚ) - 189000000 / (189 / 10)| ≤ 1 := by
  have h : ConsistencyFix.genRec c6Rec = c6Rec := by
    simp [ConsistencyFix.genRec, c6Rec]
  rw [h]
  refine ⟨rfl, rfl, rfl, ?_⟩
  rw [abs_le]
  norm_num

/-- Claim C6 (amended): after the USD backfill step, every record with a
local value and a positive FX rate that lacked a USD value carries exactly
value_local / fx_rate; a pre-existing USD value is kept unchanged; and
every record lacking a local value or a positive FX rate has its USD value
removed. -/
theorem C6_usd_backfill (r : Rec) :
    (∀ m f, r.valueMXN = some m → r.fxEOM = some f → 0 < f →
      (r.valueUSD = none →
        (ConsistencyFix.genRec r).valueUSD = some (m / f)) ∧
      (∀ u, r.valueUSD = some u →
        (ConsistencyFix.genRec r).valueUSD = some u)) ∧
    ((r.valueMXN = none ∨ r.fxEOM = none ∨
        (∀ f, r.fxEOM = some f → f ≤ 0)) →
      (ConsistencyFix.genRec r).valueUSD = none) := by
  constructor
  · intro m f hm hf hpos
    constructor
    · intro hu
      simp [ConsistencyFix.genRec, hm, hf, hpos, hu]
    · intro u hu
      simp [ConsistencyFix.genRec, hm, hf, hpos, hu]
  · intro h
    rcases hm : r.valueMXN with _ | m
    · simp [ConsistencyFix.genRec, hm]
    · rcases hf : r.fxEOM with _ | f
      · simp [ConsistencyFix.genRec, hm, hf]
      · have hle : f ≤ 0 := by
          rcases h with h | h | h
          · rw [hm] at h; cases h
          · rw [hf] at h; cases h
          · exact h f hf
        simp [ConsistencyFix.genRec, hm, hf, not_lt.mpr hle]

/-- Claim C6 (witness): the backfill computes 189000000 / 18.90 = 10000000
for a record that lacked a USD value. -/
theorem C6_usd_backfill_witness :
    (ConsistencyFix.genRec c6wRec).valueUSD = some 10000000 := by
  have h := ((C6_usd_backfill c6wRec).1 189000000 (189 / 10) rfl rfl
    (by norm_num)).1 rfl
  rw [h]
  exact congrArg some (by norm_num)

/-- Claim C9: `approve_records` does not check the result of
`create_database_backup`.  In a state where the backup copy operation
fails but the record store is readable, the approve operation appends the
pending records with no successful backup ever taken. -/
theorem C9_backup_not_enforced :
    (Monitor.approveRecords c9State).dbFile = some [sampleRec] ∧
    (Monitor.approveRecords c9State).backups = [] := by
  constructor <;> rfl

namespace GrowthAnalysis

lemma mkCell_policy (c h : ℚ) :
    (0 < (mkCell c h).historical →
      (mkCell c h).rate = GRate.fin
        (((mkCell c h).current - (mkCell c h).historical) /
          (mkCell c h).historical * 100)) ∧
    ((mkCell c h).historical = 0 → 0 < (mkCell c h).current →
      (mkCell c h).rate = GRate.posInf ∧
      ∀ q, (mkCell c h).rate ≠ GRate.fin q) ∧
    ((mkCell c h).historical = 0 → (mkCell c h).current = 0 →
      (mkCell c h).rate = GRate.fin 0) := by
  refine ⟨?_, ?_, ?_⟩
  · intro hh
    simp only [mkCell] at hh ⊢
    simp [hh]
  · intro hh hc
    simp only [mkCell] at hh hc ⊢
    constructor
    · simp [hh, hc, lt_irrefl]
    · intro q
      simp [hh, hc, lt_irrefl]
  · intro hh hc
    simp only [mkCell] at hh hc ⊢
    simp [hh, hc, lt_irrefl]

end GrowthAnalysis

/-- Claim C1: in every growth comparison, each institution's cell of each
asset category follows the three-branch policy: historical > 0 gives the
finite rate (current - historical) / historical * 100; current > 0 with
historical = 0 gives the positive-infinity sentinel (never a finite rate);
both zero gives rate 0. -/
theorem C1_growth_rate_policy (cur hist : List (String × GrowthAnalysis.GAV))
    (row : GrowthAnalysis.GrowthRow)
    (hrow : row ∈ GrowthAnalysis.calculateGrowthRates cur hist)
    (cell : GrowthAnalysis.GrowthCell)
    (hcell : cell ∈ [row.mf, row.tp, row.tot]) :
    (0 < cell.historical →
      cell.rate = GrowthAnalysis.GRate.fin
        ((cell.current - cell.historical) / cell.historical * 100)) ∧
    (cell.historical = 0 → 0 < cell.current →
      cell.rate = GrowthAnalysis.GRate.posInf ∧
      ∀ q, cell.rate ≠ GrowthAnalysis.GRate.fin q) ∧
    (cell.historical = 0 → cell.current = 0 →
      cell.rate = GrowthAnalysis.GRate.fin 0) := by
  obtain ⟨a, _, rfl⟩ := List.mem_map.1 hrow
  simp only [List.mem_cons, List.not_mem_nil, or_false] at hcell
  rcases hcell with rfl | rfl | rfl
  · exact GrowthAnalysis.mkCell_policy _ _
  · exact GrowthAnalysis.mkCell_policy _ _
  · exact GrowthAnalysis.mkCell_policy _ _

/-- Claim C1 (witness): an institution with current mutual-fund value 1
and no historical entry gets the positive-infinity sentinel. -/
theorem C1_growth_rate_policy_witness :
    (GrowthAnalysis.mkRow [("Azteca", ⟨1, 0, 1⟩)] [] "Azteca").mf.historical
      = 0 ∧
    0 < (GrowthAnalysis.mkRow [("Azteca", ⟨1, 0, 1⟩)] [] "Azteca").mf.current ∧
    (GrowthAnalysis.mkRow [("Azteca", ⟨1, 0, 1⟩)] [] "Azteca").mf.rate =
      GrowthAnalysis.GRate.posInf := by
  have hmem : GrowthAnalysis.mkRow [("Azteca", ⟨1, 0, 1⟩)] [] "Azteca" ∈
      GrowthAnalysis.calculateGrowthRates [("Azteca", ⟨1, 0, 1⟩)] [] := by
    simp [GrowthAnalysis.calculateGrowthRates, GrowthAnalysis.unionKeys,
      GrowthAnalysis.sortStrs, GrowthAnalysis.insertStr]
  have h := C1_growth_rate_policy [("Azteca", ⟨1, 0, 1⟩)] [] _ hmem
    ((GrowthAnalysis.mkRow [("Azteca", ⟨1, 0, 1⟩)] [] "Azteca").mf) (by simp)
  have hh : (GrowthAnalysis.mkRow
      [("Azteca", ⟨1, 0, 1⟩)] [] "Azteca").mf.historical = 0 := by
    simp [GrowthAnalysis.mkRow, GrowthAnalysis.lookupGA, GrowthAnalysis.mkCell]
  have hc : (0 : ℚ) < (GrowthAnalysis.mkRow
      [("Azteca", ⟨1, 0, 1⟩)] [] "Azteca").mf.current := by
    simp [GrowthAnalysis.mkRow, GrowthAnalysis.lookupGA, GrowthAnalysis.mkCell]
  exact ⟨hh, hc, (h.2.1 hh hc).1⟩

/-- Claim C3 (counterexample): with latest period 2024-12, the growth
analyzer emits no YTD window at all and the professional-tables analyzer
uses 2023-12, so neither uses December of the latest year as the claim
states. -/
theorem C3_counterexample :
    (∀ e ∈ GrowthAnalysis.comparisonPeriods 2024 12, e.1 ≠ "YTD") ∧
    ProfessionalTables.ytdBaseline 2024 12 ≠ (2024, 12) := by
  constructor
  · intro e he
    simp [GrowthAnalysis.comparisonPeriods] at he
    rcases he with rfl | rfl | rfl <;> simp
  · simp [ProfessionalTables.ytdBaseline]

/-- Claim C3 (amended): when the latest month is not December both
analyzers use December of the prior year as the year-to-date baseline;
when the latest month is December the growth analyzer emits no YTD window
at all and the professional-tables analyzer still uses December of the
prior year (never December of the latest year). -/
theorem C3_ytd_baseline_rule (y m : ℤ) (h1 : 1 ≤ m) (h2 : m ≤ 12) :
    (m ≠ 12 →
      ("YTD", y - 1, 12) ∈ GrowthAnalysis.comparisonPeriods y m ∧
      ProfessionalTables.ytdBaseline y m = (y - 1, 12)) ∧
    (m = 12 →
      (∀ e ∈ GrowthAnalysis.comparisonPeriods y m, e.1 ≠ "YTD") ∧
      ProfessionalTables.ytdBaseline y m = (y - 1, 12)) := by
  constructor
  · intro hm
    refine ⟨?_, rfl⟩
    simp [GrowthAnalysis.comparisonPeriods, hm, h2]
  · intro hm
    subst hm
    refine ⟨?_, rfl⟩
    intro e he
    simp [GrowthAnalysis.comparisonPeriods] at he
    rcases he with rfl | rfl | rfl <;> simp

/-- Claim C3 (witness): with latest period 2025-07 the YTD baseline of
both analyzers is 2024-12. -/
theorem C3_ytd_baseline_rule_witness :
    ("YTD", (2024 : ℤ), (12 : ℤ)) ∈ GrowthAnalysis.comparisonPeriods 2025 7 ∧
    ProfessionalTables.ytdBaseline 2025 7 = (2024, 12) := by
  have h := (C3_ytd_baseline_rule 2025 7 (by norm_num) (by norm_num)).1
    (by norm_num)
  norm_num at h
  exact h

/-- Claim C8: the new-record extraction returns exactly the processed
records whose composite key is absent from the current store, so ingesting
records whose keys already exist does not increase the record count. -/
theorem C8_dedup_extraction (db proc : List Rec) :
    (∀ r, r ∈ Monitor.extractNewRecords db proc ↔
      (r ∈ proc ∧ Monitor.recKey r ∉ db.map Monitor.recKey)) ∧
    ((∀ r ∈ proc, Monitor.recKey r ∈ db.map Monitor.recKey) →
      (db ++ Monitor.extractNewRecords db proc).length = db.length) := by
  constructor
  · intro r
    simp [Monitor.extractNewRecords, List.mem_filter]
  · intro h
    have he : Monitor.extractNewRecords db proc = [] := by
      rw [Monitor.extractNewRecords, List.filter_eq_nil_iff]
      intro r hr
      simp [h r hr]
    simp [he]

/-- Claim C8 (witness): re-ingesting an already stored record extracts
nothing and leaves the record count unchanged. -/
theorem C8_dedup_extraction_witness :
    Monitor.extractNewRecords [sampleRec] [sampleRec] = [] ∧
    ([sampleRec] ++ Monitor.extractNewRecords [sampleRec] [sampleRec]).length
      = 1 := by
  have h2 := (C8_dedup_extraction [sampleRec] [sampleRec]).2 (by simp)
  have hiff := (C8_dedup_extraction [sampleRec] [sampleRec]).1
  have he : Monitor.extractNewRecords [sampleRec] [sampleRec] = [] := by
    rw [List.eq_nil_iff_forall_not_mem]
    intro r hr
    rcases (hiff r).1 hr with ⟨hmem, hnot⟩
    simp at hmem
    subst hmem
    exact hnot (by simp)
  exact ⟨he, h2⟩

/-- Claim C10: the growth analyzer's aggregation uses only records whose
valueUSD is present; a period whose records all lack a USD value yields an
empty aggregate, no institution appears in it, and a comparison window
with such a historical period is skipped. -/
theorem C10_usd_only_aggregation (db : List Rec) (y m : String) :
    GrowthAnalysis.getPeriodData db y m =
      GrowthAnalysis.getPeriodData
        (db.filter (fun r => r.valueUSD.isSome)) y m ∧
    ((∀ r ∈ db, r.periodYear = some y → r.periodMonth = some m →
        r.valueUSD = none) →
      GrowthAnalysis.getPeriodData db y m = [] ∧
      (∀ a, GrowthAnalysis.hasKey (GrowthAnalysis.getPeriodData db y m) a
        = false) ∧
      (∀ cur name,
        GrowthAnalysis.computeWindows db cur [(name, y, m)] = [])) := by
  constructor
  · unfold GrowthAnalysis.getPeriodData
    rw [List.filter_filter]
    congr 1
    apply congrArg
    apply List.filter_congr
    intro r _
    unfold GrowthAnalysis.gaFilter
    cases hu : r.valueUSD.isSome <;> simp [hu]
  · intro h
    have hnil : db.filter (GrowthAnalysis.gaFilter y m) = [] := by
      rw [List.filter_eq_nil_iff]
      intro r hr
      unfold GrowthAnalysis.gaFilter
      simp only [Bool.and_eq_true, beq_iff_eq, not_and]
      intro h1 h2
      rw [h r hr h1.1 h1.2] at h2
      simp at h2
    have h0 : GrowthAnalysis.getPeriodData db y m = [] := by
      unfold GrowthAnalysis.getPeriodData
      rw [hnil]
      rfl
    refine ⟨h0, ?_, ?_⟩
    · intro a
      rw [h0]
      rfl
    · intro cur name
      simp [GrowthAnalysis.computeWindows, h0]

/-- Claim C10 (witness): a period whose only record lacks a USD value has
an empty aggregate and its comparison window is dropped. -/
theorem C10_usd_only_aggregation_witness :
    GrowthAnalysis.getPeriodData c10Db "2020" "06" = [] ∧
    GrowthAnalysis.computeWindows c10Db [] [("5Y", "2020", "06")] = [] := by
  have h := (C10_usd_only_aggregation c10Db "2020" "06").2 (by
    intro r hr h1 h2
    simp [c10Db] at hr
    subst hr
    rfl)
  exact ⟨h.1, h.2.2 [] "5Y"⟩

namespace ProfessionalTables

lemma dictSum_addToDict (d : List (String × ℚ)) (a : String) (v : ℚ) :
    dictSum (addToDict d a v) = dictSum d + v := by
  induction d with
  | nil => simp [addToDict, dictSum]
  | cons e rest ih =>
    obtain ⟨k, x⟩ := e
    by_cases hk : k = a
    · simp only [addToDict, if_pos hk, dictSum, List.map_cons, List.sum_cons]
      ring
    · simp only [addToDict, if_neg hk, dictSum, List.map_cons,
        List.sum_cons] at ih ⊢
      rw [ih]
      ring

lemma dictSum_buildDict (l : List Rec) (d : List (String × ℚ))
    (h : ∀ r ∈ l, r.afore ≠ none ∧ r.afore ≠ some "") :
    dictSum (buildDict l d) = dictSum d + (l.map usdMillions).sum := by
  induction l generalizing d with
  | nil => simp [buildDict]
  | cons r rest ih =>
    have hr := h r (List.mem_cons_self r rest)
    have hrest : ∀ x ∈ rest, x.afore ≠ none ∧ x.afore ≠ some "" :=
      fun x hx => h x (List.mem_cons_of_mem r hx)
    rcases ha : r.afore with _ | a
    · exact absurd ha hr.1
    · have hne : a ≠ "" := fun heq => hr.2 (by rw [ha, heq])
      simp only [buildDict, ha, if_neg hne]
      rw [ih _ hrest, dictSum_addToDict]
      simp only [List.map_cons, List.sum_cons]
      ring

lemma ptFilter_eq (db : List Rec) (y m c : String)
    (h : ∀ r ∈ db, r.valueMXN ≠ none ∧ r.fxEOM ≠ none) :
    db.filter (ptFilter y m c) =
      db.filter (fun r => r.periodYear == some y &&
        r.periodMonth == some m && r.concept == some c) := by
  apply List.filter_congr
  intro r hr
  unfold ptFilter
  have h1 : r.valueMXN.isSome = true := by
    rcases hx : r.valueMXN with _ | v
    · exact absurd hx (h r hr).1
    · rfl
  have h2 : r.fxEOM.isSome = true := by
    rcases hx : r.fxEOM with _ | v
    · exact absurd hx (h r hr).2
    · rfl
  rw [h1, h2, Bool.and_true, Bool.and_true]

lemma pctOfTotal_pos (cat total : ℚ) (h : 0 < total) :
    pctOfTotal cat total = cat / total * 100 := by
  simp [pctOfTotal, h]

lemma pctOfTotal_zero (cat : ℚ) : pctOfTotal cat 0 = 0 := by
  simp [pctOfTotal]

lemma mem_aum_pct (db : List Rec) (y m : String) (row : AumRow)
    (h : row ∈ createAumTable db y m) :
    row.pct = pctOfTotal row.mfAUM row.totalAUM := by
  unfold createAumTable at h
  rcases List.mem_append.1 h with h | h
  · simp only [aumRows] at h
    obtain ⟨a, _, rfl⟩ := List.mem_map.1 h
    rfl
  · simp only [List.mem_singleton] at h
    subst h
    rfl

lemma mem_active_pct (db : List Rec) (y m : String) (row : ActiveRow)
    (h : row ∈ createActiveTable db y m) :
    row.pct = pctOfTotal row.activeAUM row.totalAUM := by
  unfold createActiveTable at h
  rcases List.mem_append.1 h with h | h
  · simp only [activeRows] at h
    obtain ⟨a, _, rfl⟩ := List.mem_map.1 h
    rfl
  · simp only [List.mem_singleton] at h
    subst h
    rfl

end ProfessionalTables

/-- Claim C2: the sum over institutions of the aggregated values equals
the exact sum of the USD-millions values of the records matching the
period and concept (for record sets whose records carry institution, local
value and FX rate), and the synthetic TOTAL row holds the column sums of
the institution rows. -/
theorem C2_aggregation_conservation (db : List Rec) (y m c : String)
    (h : ∀ r ∈ db, r.afore ≠ none ∧ r.afore ≠ some "" ∧
      r.valueMXN ≠ none ∧ r.fxEOM ≠ none) :
    ProfessionalTables.dictSum (ProfessionalTables.getPeriodData db y m c) =
      ((db.filter (fun r => r.periodYear == some y &&
          r.periodMonth == some m && r.concept == some c)).map
        ProfessionalTables.usdMillions).sum ∧
    (ProfessionalTables.aumTotalRow db y m).totalAUM =
      ((ProfessionalTables.aumRows db y m).map
        ProfessionalTables.AumRow.totalAUM).sum ∧
    (ProfessionalTables.aumTotalRow db y m).mfAUM =
      ((ProfessionalTables.aumRows db y m).map
        ProfessionalTables.AumRow.mfAUM).sum := by
  refine ⟨?_, rfl, rfl⟩
  have hfl : ∀ r ∈ db.filter (ProfessionalTables.ptFilter y m c),
      r.afore ≠ none ∧ r.afore ≠ some "" := by
    intro r hr
    have hm := (List.mem_filter.1 hr).1
    exact ⟨(h r hm).1, (h r hm).2.1⟩
  unfold ProfessionalTables.getPeriodData
  rw [ProfessionalTables.dictSum_buildDict _ _ hfl,
    ProfessionalTables.ptFilter_eq db y m c
      (fun r hr => ⟨(h r hr).2.2.1, (h r hr).2.2.2⟩)]
  simp [ProfessionalTables.dictSum]

/-- Claim C2 (witness): on a two-record set the total-assets aggregate
sums to the single matching record's USD-millions value 1/50000. -/
theorem C2_aggregation_conservation_witness :
    ProfessionalTables.dictSum
      (ProfessionalTables.getPeriodData c7Db "2025" "06" "Total de Activo") =
      1 / 50000 := by
  have h := (C2_aggregation_conservation c7Db "2025" "06" "Total de Activo"
    (by
      intro r hr
      simp [c7Db] at hr
      rcases hr with rfl | rfl <;> simp)).1
  rw [h]
  norm_num [c7Db, ProfessionalTables.usdMillions, List.filter]
  rfl

/-- Claim C7: in both aggregate tables every row's percentage-of-total is
category / total * 100 when the total is positive, and exactly 0 when the
total is 0 (never undefined). -/
theorem C7_pct_zero_policy (db : List Rec) (y m : String) :
    (∀ row ∈ ProfessionalTables.createAumTable db y m,
      (0 < row.totalAUM → row.pct = row.mfAUM / row.totalAUM * 100) ∧
      (row.totalAUM = 0 → row.pct = 0)) ∧
    (∀ row ∈ ProfessionalTables.createActiveTable db y m,
      (0 < row.totalAUM → row.pct = row.activeAUM / row.totalAUM * 100) ∧
      (row.totalAUM = 0 → row.pct = 0)) := by
  constructor
  · intro row hrow
    have hp := ProfessionalTables.mem_aum_pct db y m row hrow
    constructor
    · intro ht
      rw [hp, ProfessionalTables.pctOfTotal_pos _ _ ht]
    · intro ht
      rw [hp, ht, ProfessionalTables.pctOfTotal_zero]
  · intro row hrow
    have hp := ProfessionalTables.mem_active_pct db y m row hrow
    constructor
    · intro ht
      rw [hp, ProfessionalTables.pctOfTotal_pos _ _ ht]
    · intro ht
      rw [hp, ht, ProfessionalTables.pctOfTotal_zero]

/-- Claim C7 (witness): for a period with no data the TOTAL row has total
0 and percentage exactly 0. -/
theorem C7_pct_zero_policy_witness :
    (ProfessionalTables.aumTotalRow c7Db "1999" "01").totalAUM = 0 ∧
    (ProfessionalTables.aumTotalRow c7Db "1999" "01").pct = 0 := by
  have hmem : ProfessionalTables.aumTotalRow c7Db "1999" "01" ∈
      ProfessionalTables.createAumTable c7Db "1999" "01" := by
    simp [ProfessionalTables.createAumTable]
  have ht : (ProfessionalTables.aumTotalRow c7Db "1999" "01").totalAUM
      = 0 := by rfl
  exact ⟨ht, ((C7_pct_zero_policy c7Db "1999" "01").1 _ hmem).2 ht⟩
